import Mathlib

/-!
Verification development for the FastJLP Kangaroo solver (Pollard's kangaroo
method on secp256k1 with a pluggable Metal GPU backend).

The definitions below are a shallow embedding of the program.  Machine
integers are modelled as natural numbers with explicit reductions modulo
2 ^ 32, 2 ^ 64, 2 ^ 128 or 2 ^ 256; field elements of secp256k1 are natural
numbers reduced modulo the field characteristic secpP; scalars are natural
numbers reduced modulo the group order secpN.  The build under verification
is the default one: USE_SYMMETRY is not defined, WITHGPU with the Metal
backend (GPU_BACKEND_METAL) is enabled, and the compile-time constants are
those asserted by MetalConstants.h: NB_JUMP = 32, GPU_GRP_SIZE = 128,
NB_RUN = 64, TAME = 0, WILD = 1.
-/

set_option maxRecDepth 4000

namespace FastJLP

/-- secp256k1 field characteristic (constant of the external SECPK1 oracle). -/
def secpP : ℕ := 2 ^ 256 - 2 ^ 32 - 977

/-- secp256k1 group order n (constant of the external SECPK1 oracle; the value
appearing in tests/MetalPackingTests.cpp). -/
def secpN : ℕ := 0xFFFFFFFFFFFFFFFFFFFFFFFFFFFFFFFEBAAEDCE6AF48A03BBFD25E8CD0364141

/-- TAME herd tag (Constants.h via MetalConstants.h static assertions). -/
def TAME : ℕ := 0

/-- WILD herd tag (Constants.h via MetalConstants.h static assertions). -/
def WILD : ℕ := 1

/-- Field subtraction modulo secpP.  Models both Int::ModSub of the SECPK1
oracle and ModSub256 of the Metal kernel on canonical representatives. -/
def fsub (a b : ℕ) : ℕ := (a + (secpP - b % secpP)) % secpP

/-- Field multiplication modulo secpP (Int::ModMulK1 / the kernel _ModMult). -/
def fmul (a b : ℕ) : ℕ := a * b % secpP

/-- Field inverse modulo secpP via the extended Euclidean algorithm.  Models
the batched modular inversion oracle (IntGroup::ModInv on the CPU,
_ModInvGrouped in the Metal kernel); the grouped-inversion trick is
semantics-preserving, so it is modelled elementwise. -/
def feInv (a : ℕ) : ℕ := (((Nat.xgcd (a % secpP) secpP).1) % (secpP : ℤ)).toNat

/-- Kangaroo::SetDP (Kangaroo.cpp): computes the 64-bit distinguished-point
mask dMask from the dpBits parameter.  dpSize = 0 gives mask 0; dpSize above
64 is clamped to 64; otherwise the mask is the 64-bit complement of
(1 shifted left by (64 - dpSize)) minus 1. -/
def setDP (size : ℕ) : ℕ :=
  if size = 0 then 0
  else
    let s := if size > 64 then 64 else size
    2 ^ 64 - 1 - (2 ^ (64 - s) - 1)

/-- Kangaroo::IsDP (Kangaroo.cpp): a 64-bit limb x is a distinguished point
when x AND dMask is zero.  The argument is reduced modulo 2 ^ 64 to model the
uint64_t parameter. -/
def isDP (x dMask : ℕ) : Bool := (x % 2 ^ 64) &&& dMask = 0

/-- Result of Kangaroo::ParseConfigFile: the parsed range plus the parsed
public keys.  Public-key points are abstracted by their identity. -/
structure ParsedConfig where
  rangeStart : ℕ
  rangeEnd : ℕ
  keys : List ℕ
deriving DecidableEq

/-- Kangaroo::ParseConfigFile (Kangaroo.cpp lines 97-155), modelled after the
file has been read and split into non-empty lines: startVal and endVal are the
values of the first two lines (Int::SetBase16 is the external oracle and does
not fail), and keyLines holds the result of Secp256K1::ParsePublicKeyHex for
each remaining line (none = parse failure).  The source returns false when
fewer than 3 lines are present (no key line) or when any public key fails to
parse; it performs no comparison between rangeStart and rangeEnd. -/
def parseConfigFile (startVal endVal : ℕ) (keyLines : List (Option ℕ)) :
    Option ParsedConfig :=
  if keyLines.length = 0 then none
  else if keyLines.any (fun k => k.isNone) then none
  else some ⟨startVal, endVal, keyLines.filterMap id⟩

/-- Limb-wise range-order check of the CLI ephemeral-range path (main.cpp:
for i = 3 down to 0, reject when start limb is greater, accept when smaller,
continue on equality; accept when all limbs are equal). -/
def cliRangeOk (s3 s2 s1 s0 e3 e2 e1 e0 : ℕ) : Bool :=
  if s3 > e3 then false else if s3 < e3 then true
  else if s2 > e2 then false else if s2 < e2 then true
  else if s1 > e1 then false else if s1 < e1 then true
  else if s0 > e0 then false else if s0 < e0 then true
  else true

/-- Value of a 256-bit quantity given as four little-endian 64-bit limbs. -/
def limbVal (l0 l1 l2 l3 : ℕ) : ℕ :=
  l3 * 2 ^ 192 + l2 * 2 ^ 128 + l1 * 2 ^ 64 + l0

/-- CPU-side kangaroo state: affine coordinates px, py (field elements) and
the walked distance d, an Int kept in canonical form modulo secpN. -/
structure CpuKangaroo where
  px : ℕ
  py : ℕ
  d : ℕ
deriving DecidableEq

/-- GPU-side kangaroo state (MetalKangaroo of MetalPacking.h): the coordinate
limbs px, py and the two 64-bit distance limbs, modelled as a natural number
below 2 ^ 128. -/
structure GpuKangaroo where
  px : ℕ
  py : ℕ
  dist : ℕ
deriving DecidableEq

/-- PackKangaroo (MetalPacking.h): copies the four 64-bit coordinate limbs,
and stores the low two 64-bit limbs of the adjusted distance, where the
adjustment adds wildOffset modulo secpN for odd (WILD) kangaroo indices. -/
def packKangaroo (wildOffset idx : ℕ) (k : CpuKangaroo) : GpuKangaroo :=
  let adjusted := if idx % 2 = WILD then (k.d + wildOffset) % secpN else k.d
  { px := k.px % 2 ^ 256, py := k.py % 2 ^ 256, dist := adjusted % 2 ^ 128 }

/-- UnpackKangaroo (MetalPacking.h): restores the coordinates from the four
limbs and, for odd (WILD) indices, subtracts wildOffset modulo secpN
(Int::ModSubK1order) from the zero-extended two-limb distance. -/
def unpackKangaroo (wildOffset idx : ℕ) (g : GpuKangaroo) : CpuKangaroo :=
  let adjusted := g.dist % 2 ^ 128
  { px := g.px % 2 ^ 256, py := g.py % 2 ^ 256,
    d := if idx % 2 = WILD then (adjusted + (secpN - wildOffset % secpN)) % secpN
         else adjusted }

/-- Adjusted distance of a CPU kangaroo as stored on the GPU: the wildOffset
is added modulo secpN for odd (WILD) indices (PackKangaroo). -/
def adjOf (wildOffset idx : ℕ) (k : CpuKangaroo) : ℕ :=
  if idx % 2 = WILD then (k.d + wildOffset) % secpN else k.d

/-- Jump table (jumpDistance, jumpPointx, jumpPointy arrays of NB_JUMP = 32
entries). -/
structure JumpTable where
  dist : Fin 32 → ℕ
  ptx : Fin 32 → ℕ
  pty : Fin 32 → ℕ

/-- Jump-index selection shared by the CPU walker and the Metal kernel:
the low 64-bit limb of the x coordinate reduced modulo NB_JUMP = 32
(px.bits64[0] % NB_JUMP on the CPU, xLimb0 % jump_count on the GPU, with
jump_count = NB_JUMP). -/
def jmpFin (px : ℕ) : Fin 32 := ⟨px % 2 ^ 64 % 32, Nat.mod_lt _ (by norm_num)⟩

/-- One CPU step of one kangaroo, from the random-walk body of
Kangaroo::SolveKeyCPU (Kangaroo.cpp lines 390-444, USE_SYMMETRY off):
select the jump from the low x limb, add the jump point with the affine
slope formula (dx inverted by the grouped-inversion oracle), and add the
jump distance to d modulo secpN (Int::ModAddK1order). -/
def cpuStepK (jt : JumpTable) (k : CpuKangaroo) : CpuKangaroo :=
  let j := jmpFin k.px
  let dxv := fsub k.px (jt.ptx j)
  let dxInv := feInv dxv
  let dy := fsub k.py (jt.pty j)
  let s := fmul dy dxInv
  let p2 := fmul s s
  let rx := fsub (fsub p2 (jt.ptx j)) k.px
  let ry := fsub (fmul (fsub k.px rx) s) k.py
  { px := rx, py := ry, d := (k.d + jt.dist j) % secpN }

/-- One iteration of the Metal kernel comp_kangaroos for one kangaroo
(kernels.metal, USE_SYMMETRY off): the same jump selection and affine slope
update as the CPU walker, but the distance is updated by Add128Vec, a plain
128-bit addition of the two jump-distance limbs that wraps modulo 2 ^ 128
with no reduction modulo secpN. -/
def gpuStepK (jt : JumpTable) (g : GpuKangaroo) : GpuKangaroo :=
  let j := jmpFin g.px
  let dxv := fsub g.px (jt.ptx j)
  let dxInv := feInv dxv
  let dy := fsub g.py (jt.pty j)
  let s := fmul dy dxInv
  let p2 := fmul s s
  let rx := fsub (fsub p2 (jt.ptx j)) g.px
  let ry := fsub (fmul (fsub g.px rx) s) g.py
  { px := rx, py := ry, dist := (g.dist + jt.dist j % 2 ^ 128) % 2 ^ 128 }

/-- n CPU steps of one kangaroo (the -check reference loop in
Kangaroo::Check runs NB_RUN such steps). -/
def cpuRun (jt : JumpTable) : ℕ → CpuKangaroo → CpuKangaroo
  | 0, k => k
  | n + 1, k => cpuRun jt n (cpuStepK jt k)

/-- n kernel iterations of one kangaroo (comp_kangaroos runs nb_run =
iterationsPerDispatch iterations per dispatch; runOnce performs one
dispatch). -/
def gpuRun (jt : JumpTable) : ℕ → GpuKangaroo → GpuKangaroo
  | 0, g => g
  | n + 1, g => gpuRun jt n (gpuStepK jt g)

/-- kDpWords of the Metal kernel: a stored DP item occupies 14 u32 words. -/
def kDpWords : ℕ := 14

/-- Host-side DP item stride in u32 words.  Modelled from the spec:
ITEM_SIZE32 is defined in GPU/GPUEngine.h, which is not part of the sources
under review; the spec states every DP item is 14 u32 words (8 for x, 4 for
the distance, 2 for the kangaroo index), matching ITEM_SIZE = 56 bytes. -/
def ITEM_SIZE32 : ℕ := 14

/-- Truncation of a value to one 32-bit ring word. -/
def word32 (v : ℕ) : ℕ := v % 2 ^ 32

/-- StoreDpItem of the Metal kernel (kernels.metal): 14 words written from
word offset pos * kDpWords of dp_items; each 64-bit limb is split into a low
word then a high word; words 0-7 hold x, words 8-11 the distance limbs, and
words 12-13 the originating kangaroo index. -/
def storeDpItem (x : Fin 4 → ℕ) (dist : Fin 2 → ℕ) (index : ℕ) : List ℕ :=
  [ word32 (x 0), word32 (x 0 / 2 ^ 32),
    word32 (x 1), word32 (x 1 / 2 ^ 32),
    word32 (x 2), word32 (x 2 / 2 ^ 32),
    word32 (x 3), word32 (x 3 / 2 ^ 32),
    word32 (dist 0), word32 (dist 0 / 2 ^ 32),
    word32 (dist 1), word32 (dist 1 / 2 ^ 32),
    word32 index, word32 (index / 2 ^ 32) ]

/-- Contents of the device dp_items buffer after the kernel has emitted the
given items: item i occupies words i * kDpWords to i * kDpWords + 13 (the
kernel writes dest = dp_items + pos * kDpWords); unwritten words read 0
(resetDPCount zeroes the buffer head and the host ring is zero-initialised).
MetalBackend::readDP copies this buffer verbatim into the host ring. -/
def dpDeviceBuffer (items : List (List ℕ)) : ℕ → ℕ :=
  fun w => (items.flatten).getD w 0

/-- Decoding of one DP item at a given word offset, from
MetalDecodeDistinguishedPoint (MetalDistinguishedPoint.h): four 64-bit x
limbs from words 0-7, two distance limbs from words 8-11, the index from
words 12-13; each 64-bit value is low word plus 2 ^ 32 times high word. -/
def decodeDpItemAt (ring : ℕ → ℕ) (base : ℕ) :
    (Fin 4 → ℕ) × (Fin 2 → ℕ) × ℕ :=
  ( fun j => ring (base + 2 * j.val) + 2 ^ 32 * ring (base + 2 * j.val + 1),
    fun j => ring (base + 8 + 2 * j.val) + 2 ^ 32 * ring (base + 8 + 2 * j.val + 1),
    ring (base + 12) + 2 ^ 32 * ring (base + 13) )

/-- Host decoding of the i-th drained DP item, from Kangaroo::SolveKeyGPU and
Kangaroo::Check: itemWords = dpRing.data() + i * ITEM_SIZE32 + 1, i.e. the
item is read starting one u32 word past i * ITEM_SIZE32. -/
def decodeDpItem (ring : ℕ → ℕ) (i : ℕ) : (Fin 4 → ℕ) × (Fin 2 → ℕ) × ℕ :=
  decodeDpItemAt ring (i * ITEM_SIZE32 + 1)

/-- Example DP payload for the decoding claim: x limb 0 is 1, everything
else 0. -/
def xex : Fin 4 → ℕ := fun j => if j.val = 0 then 1 else 0

/-- Example DP distance limbs (zero). -/
def dex : Fin 2 → ℕ := fun _ => 0

/-- Ring contents after the kernel emits the single example item. -/
def dpRingEx : ℕ → ℕ := dpDeviceBuffer [storeDpItem xex dex 0]

/-- Jump-bit width used by Kangaroo::CreateJumpTable (USE_SYMMETRY off):
rangePower / 2 + 1, clamped to 128. -/
def jumpBitOf (rangePower : ℕ) : ℕ := min (rangePower / 2 + 1) 128

/-- Zero-fixup of one drawn round of jump distances: a zero draw is replaced
by 1 (CreateJumpTable: if IsZero then SetInt32(1)). -/
def mkRound (draws : Fin 32 → ℕ) : Fin 32 → ℕ :=
  fun i => if draws i = 0 then 1 else draws i

/-- Total distance of one drawn round (CreateJumpTable accumulates
totalDist and accepts on the average distAvg = totalDist / NB_JUMP). -/
def roundTotal (tbl : Fin 32 → ℕ) : ℕ := ∑ i : Fin 32, tbl i

/-- Retry loop of Kangaroo::CreateJumpTable: while not ok and maxRetry is
positive, draw a fresh round (draw r is the r-th round of 32 PRNG draws),
test the mean-distance constraint (the accept predicate models the
floating-point comparison of distAvg against the bounds
2 ^ (jumpBit - 1.05) and 2 ^ (jumpBit - 0.95)), and decrement maxRetry.
The pattern fuel + 1 means fuel redraws remain after the current round;
the loop ends with the last drawn table whether or not it was accepted. -/
def jumpLoop (draw : ℕ → Fin 32 → ℕ) (accept : ℕ → Bool) :
    ℕ → ℕ → ((Fin 32 → ℕ) × Bool)
  | 0, r => (mkRound (draw r), accept (roundTotal (mkRound (draw r))))
  | fuel + 1, r =>
    let tbl := mkRound (draw r)
    if accept (roundTotal tbl) then (tbl, true)
    else if fuel = 0 then (tbl, false)
    else jumpLoop draw accept fuel (r + 1)

/-- Kangaroo::CreateJumpTable with maxRetry = 100: at most 100 rounds are
drawn; the function then proceeds unconditionally (the source computes the
jump points P_i from whatever distances the final round produced and prints
the average; there is no error path). -/
def createJumpTable (draw : ℕ → Fin 32 → ℕ) (accept : ℕ → Bool) :
    (Fin 32 → ℕ) × Bool :=
  jumpLoop draw accept 100 0

/-- n-th value of a pseudo-random stream generated from state s.  Modelled
from the spec: the PRNG (rseed / Rand of SECPK1/Random.cpp) is not part of
the sources under review; the spec describes it as a deterministic generator
whose draws are a pure function of the seeded state. -/
def rngNth {S : Type} (next : S → ℕ × S) : S → ℕ → ℕ
  | s, 0 => (next s).1
  | s, n + 1 => rngNth next (next s).2 n

/-- Kangaroo::CreateJumpTable including its seeding protocol, threaded
through an abstract PRNG: whatever the ambient PRNG state s0 is when the
builder starts (the process seeds the PRNG with the current time at
startup), the builder first executes rseed(0x600DCAFE), replacing the state,
and only then draws the NB_JUMP distances (Rand(jumpBit), round-major);
afterwards the distances determine the jump points P_i = dist_i times G,
modelled by their discrete logarithms modulo secpN. -/
def createJumpTableSeeded {S : Type} (rseedF : ℕ → S) (next : S → ℕ × S)
    (accept : ℕ → Bool) (rangePower : ℕ) (s0 : S) :
    ((Fin 32 → ℕ) × Bool) × (Fin 32 → ZMod secpN) :=
  let s1 := rseedF 0x600DCAFE
  let draw : ℕ → Fin 32 → ℕ :=
    fun r i => rngNth next s1 (32 * r + i.val) % 2 ^ jumpBitOf rangePower
  let res := createJumpTable draw accept
  (res, fun i => (res.1 i : ZMod secpN))

/-- Discrete-logarithm model of the scalar/point oracle.  Modelled from the
spec: the SECPK1 library (scalar multiplication, point addition,
ComputePublicKey) is an external collaborator not under review; the curve
group is cyclic of order secpN generated by G, so a point is represented by
its discrete logarithm base G, a residue modulo secpN, with G itself
represented by 1 and point addition by addition of residues.
ComputePublicKey k = k times G is therefore the identity on residues. -/
def computePublicKey (k : ZMod secpN) : ZMod secpN := k

/-- One random walker: herd kind (TAME or WILD), walked distance d, and the
current curve point in the discrete-logarithm representation. -/
structure Walker where
  kind : ℕ
  d : ZMod secpN
  pt : ZMod secpN
deriving DecidableEq

/-- Creation of walker j of a herd, from Kangaroo::CreateHerd (Kangaroo.cpp
lines 937-1005, USE_SYMMETRY off): the kind alternates as (j + firstType)
mod 2; the distance is a random draw rnd, shifted down by rangeWidthDiv2
modulo secpN for WILD walkers; the starting point is the oracle's d times
G for TAME walkers and keyToSearch plus d times G for WILD walkers
(ComputePublicKeys followed by AddDirect with the zero point or
keyToSearch).  q is the discrete logarithm of keyToSearch. -/
def createWalker (q halfWidth rnd : ZMod secpN) (firstType j : ℕ) : Walker :=
  let kind := (j + firstType) % 2
  let d := if kind = WILD then rnd - halfWidth else rnd
  { kind := kind, d := d, pt := (if kind = WILD then q else 0) + d }

/-- One walk step of a walker, from the random-walk body of
Kangaroo::SolveKeyCPU: the jump point (whose discrete logarithm is the jump
distance jt j) is added to the current point, and the same jump distance is
added to d modulo secpN.  The jump index j is selected from the x coordinate
of the current point; the statement quantifies over all indices, covering
any selection. -/
def walkerStep (jt : Fin 32 → ZMod secpN) (j : Fin 32) (w : Walker) : Walker :=
  { w with d := w.d + jt j, pt := w.pt + jt j }

/-- Herd invariant of spec section 8: a TAME walker sits at d times G, a
WILD walker at Q plus d times G. -/
def walkerInv (q : ZMod secpN) (w : Walker) : Prop :=
  w.pt = (if w.kind = WILD then q else 0) + w.d

instance (q : ZMod secpN) (w : Walker) : Decidable (walkerInv q w) := by
  unfold walkerInv; infer_instance

/-- Kangaroo::Output (Kangaroo.cpp lines 187-225): before printing anything,
the candidate scalar pk is re-verified by recomputing PR = ComputePublicKey
(pk) and comparing it with the original public key keysToSearch[keyIdx];
the Priv line with pk is printed only on equality, otherwise Failed is
printed and false returned.  The result is the printed private key, if
any. -/
def outputResult (pk target : ZMod secpN) : Option (ZMod secpN) :=
  if computePublicKey pk = target then some pk else none

/-- Kangaroo::CheckKey (Kangaroo.cpp lines 229-264) reduced to its decision:
negate d1 when bit 0 of the type is set and d2 when bit 1 is set
(Int::ModNegK1order), form the candidate pk = d1 + d2 modulo secpN, and
report success when the candidate's public key equals keyToSearch (kts) or
its negation keyToSearchNeg (-kts). -/
def checkKeyPass (kts d1 d2 : ZMod secpN) (ty : ℕ) : Bool :=
  let d1n := if ty % 2 = 1 then -d1 else d1
  let d2n := if ty / 2 % 2 = 1 then -d2 else d2
  let pk := d1n + d2n
  if computePublicKey pk = kts then true
  else if computePublicKey pk = -kts then true
  else false

/-- Observable outcome of Kangaroo::CollisionCheck: the value written to
endOfSearch, the returned boolean, and whether the wrong-collision warning
was printed. -/
structure CollisionOutcome where
  endOfSearch : Bool
  ret : Bool
  warned : Bool
deriving DecidableEq

/-- Kangaroo::CollisionCheck (Kangaroo.cpp lines 266-313): identical kinds
are a same-herd collision and return false at once; otherwise the tame and
wild distances are ordered by kind, endOfSearch is set to the disjunction of
CheckKey over the four sign combinations (eight target checks in all), and
when every check fails the unexpected-wrong-collision warning is printed and
false is returned without setting endOfSearch. -/
def collisionCheck (kts d1 : ZMod secpN) (t1 : ℕ) (d2 : ZMod secpN) (t2 : ℕ) :
    CollisionOutcome :=
  if t1 = t2 then { endOfSearch := false, ret := false, warned := false }
  else
    let td := if t1 = TAME then d1 else d2
    let wd := if t1 = TAME then d2 else d1
    let eos := checkKeyPass kts td wd 0 || checkKeyPass kts td wd 1 ||
               checkKeyPass kts td wd 2 || checkKeyPass kts td wd 3
    if eos then { endOfSearch := true, ret := true, warned := false }
    else { endOfSearch := false, ret := false, warned := true }

/-- Outcomes of HashTable::Add (HashTable.h constants ADD_OK / ADD_DUPLICATE
/ ADD_COLLISION). -/
inductive AddStatus
  | addOk
  | addDup
  | addCollision
deriving DecidableEq

/-- Kangaroo::AddToTable (Kangaroo.cpp lines 317-325): on ADD_COLLISION the
pre-existing entry's distance and kind are handed to CollisionCheck and its
result returned; otherwise the call succeeds exactly when the status is
ADD_OK.  The first component records the CollisionCheck outcome (trivial
when no collision occurred). -/
def addToTable (kts : ZMod secpN) (status : AddStatus) (prevDist : ZMod secpN)
    (prevType : ℕ) (dist : ZMod secpN) (ty : ℕ) : CollisionOutcome × Bool :=
  match status with
  | .addCollision =>
    let o := collisionCheck kts prevDist prevType dist ty
    (o, o.ret)
  | .addOk => ({ endOfSearch := false, ret := false, warned := false }, true)
  | .addDup => ({ endOfSearch := false, ret := false, warned := false }, false)

/-- Reaction of the CPU walker to an AddToTable result (Kangaroo.cpp lines
472-491): when AddToTable reports failure the kangaroo is reset with a fresh
draw of the same kind (CreateHerd with one kangaroo); otherwise the walk
simply continues. -/
def walkerResetOnAdd (added : Bool) : Bool := !added

theorem secpP_pos : 0 < secpP := by decide

theorem secpN_pos : 0 < secpN := by decide

theorem secpP_lt_two_pow_256 : secpP < 2 ^ 256 := by decide

theorem two_pow_128_lt_secpN : 2 ^ 128 < secpN := by decide

theorem fsub_lt (a b : ℕ) : fsub a b < secpP := Nat.mod_lt _ secpP_pos

theorem fmul_lt (a b : ℕ) : fmul a b < secpP := Nat.mod_lt _ secpP_pos

theorem filterMap_id_map_some (l : List ℕ) : (l.map some).filterMap id = l := by
  induction l with
  | nil => rfl
  | cons a t ih => simp [ih]

theorem unpack_pack_eq (woff idx : ℕ) (k : CpuKangaroo)
    (hpx : k.px < 2 ^ 256) (hpy : k.py < 2 ^ 256)
    (hd : k.d < secpN) (hwoff : woff < secpN)
    (hadj : adjOf woff idx k < 2 ^ 128) :
    unpackKangaroo woff idx (packKangaroo woff idx k) = k := by
  obtain ⟨px, py, d⟩ := k
  dsimp only at hpx hpy hd
  unfold adjOf at hadj
  dsimp only at hadj
  unfold packKangaroo unpackKangaroo
  simp only [CpuKangaroo.mk.injEq]
  refine ⟨?_, ?_, ?_⟩
  · rw [Nat.mod_eq_of_lt hpx, Nat.mod_eq_of_lt hpx]
  · rw [Nat.mod_eq_of_lt hpy, Nat.mod_eq_of_lt hpy]
  · by_cases hw : idx % 2 = WILD
    · rw [if_pos hw] at hadj
      rw [if_pos hw, if_pos hw]
      rw [Nat.mod_eq_of_lt hadj, Nat.mod_eq_of_lt hadj,
        Nat.mod_eq_of_lt hwoff, Nat.mod_add_mod]
      have h2 : d + woff + (secpN - woff) = d + secpN := by omega
      rw [h2, Nat.add_mod_right, Nat.mod_eq_of_lt hd]
    · rw [if_neg hw] at hadj
      rw [if_neg hw, if_neg hw]
      rw [Nat.mod_eq_of_lt hadj, Nat.mod_eq_of_lt hadj]

/-- Claim C8: for dpBits in 1..64, SetDP yields the mask whose set bits are
exactly the high dpBits bits of a 64-bit limb, namely the 64-bit complement
of (1 shifted left by 64 - dpBits) minus 1, which equals
2 ^ 64 - 2 ^ (64 - dpBits); for dpBits = 0 the mask is 0 and the DP test
accepts every x limb. -/
theorem c8_dpmask_spec :
    (∀ d < 65, 0 < d → setDP d = 2 ^ 64 - 2 ^ (64 - d) ∧
      ∀ i < 64, Nat.testBit (setDP d) i = decide (64 - d ≤ i)) ∧
    setDP 0 = 0 ∧ ∀ x : ℕ, isDP x (setDP 0) = true := by
  refine ⟨by decide, by decide, fun x => ?_⟩
  simp [isDP, setDP]

/-- Claim C9 counterexample: a configuration file whose range start (2)
exceeds its range end (1) and which carries one well-formed public key is
parsed successfully by ParseConfigFile — no error is surfaced and the search
proceeds with the inverted range. -/
theorem c9_counterexample :
    parseConfigFile 2 1 [some 7] = some ⟨2, 1, [7]⟩ ∧ (1 : ℕ) < 2 := by
  exact ⟨by decide, by norm_num⟩

/-- Claim C9 as amended: ParseConfigFile performs no ordering check between
rangeStart and rangeEnd — any config file with at least one well-formed
public key parses successfully whatever the order of the two range values;
only the CLI ephemeral-range path of main.cpp rejects a start greater than
the end, and its limb-wise comparison accepts exactly when the 256-bit start
value is at most the end value. -/
theorem c9_amended (startVal endVal : ℕ) (ks : List ℕ)
    (s0 s1 s2 s3 e0 e1 e2 e3 : ℕ) (hks : ks ≠ [])
    (hs0 : s0 < 2 ^ 64) (hs1 : s1 < 2 ^ 64) (hs2 : s2 < 2 ^ 64)
    (hs3 : s3 < 2 ^ 64) (he0 : e0 < 2 ^ 64) (he1 : e1 < 2 ^ 64)
    (he2 : e2 < 2 ^ 64) (he3 : e3 < 2 ^ 64) :
    parseConfigFile startVal endVal (ks.map some) = some ⟨startVal, endVal, ks⟩ ∧
    (cliRangeOk s3 s2 s1 s0 e3 e2 e1 e0 = true ↔
      limbVal s0 s1 s2 s3 ≤ limbVal e0 e1 e2 e3) := by
  constructor
  · simp [parseConfigFile, hks, filterMap_id_map_some, List.any_map,
      Function.comp]
  · unfold cliRangeOk limbVal
    split_ifs <;> simp <;> omega

/-- Claim C9 amended, witness: a concrete config file with start 1, end 2
and key 7 parses to exactly those values, and the CLI limb comparison on
start 1, end 2 accepts, in agreement with 1 being at most 2. -/
theorem c9_amended_witness :
    (parseConfigFile 1 2 [some 7] = some ⟨1, 2, [7]⟩ ∧
      (cliRangeOk 0 0 0 1 0 0 0 2 = true ↔
        limbVal 1 0 0 0 ≤ limbVal 2 0 0 0)) :=
  c9_amended 1 2 [7] 1 0 0 0 2 0 0 0 (by decide) (by decide) (by decide)
    (by decide) (by decide) (by decide) (by decide) (by decide) (by decide)

/-- Claim C10: for every point, kangaroo index, wild offset and distance
whose adjusted value fits in the two stored 64-bit limbs, UnpackKangaroo
inverts PackKangaroo exactly, for tame (even) and wild (odd) indices
alike. -/
theorem c10_pack_unpack (woff idx : ℕ) (k : CpuKangaroo)
    (hpx : k.px < 2 ^ 256) (hpy : k.py < 2 ^ 256)
    (hd : k.d < secpN) (hwoff : woff < secpN)
    (hadj : adjOf woff idx k < 2 ^ 128) :
    unpackKangaroo woff idx (packKangaroo woff idx k) = k :=
  unpack_pack_eq woff idx k hpx hpy hd hwoff hadj

/-- Claim C10 witness: a wild kangaroo (index 1) at coordinates (11, 13)
with distance 5 and wild offset 7 survives the pack/unpack round trip. -/
theorem c10_pack_unpack_witness :
    unpackKangaroo 7 1 (packKangaroo 7 1 ⟨11, 13, 5⟩) = ⟨11, 13, 5⟩ :=
  c10_pack_unpack 7 1 ⟨11, 13, 5⟩ (by decide) (by decide) (by decide)
    (by decide) (by decide)

theorem cpuStep_px_lt (jt : JumpTable) (k : CpuKangaroo) :
    (cpuStepK jt k).px < 2 ^ 256 :=
  lt_trans (fsub_lt _ _) secpP_lt_two_pow_256

theorem cpuStep_py_lt (jt : JumpTable) (k : CpuKangaroo) :
    (cpuStepK jt k).py < 2 ^ 256 :=
  lt_trans (fsub_lt _ _) secpP_lt_two_pow_256

theorem cpuStep_d_lt (jt : JumpTable) (k : CpuKangaroo) :
    (cpuStepK jt k).d < secpN :=
  Nat.mod_lt _ secpN_pos

theorem adj_step (jt : JumpTable) (woff idx : ℕ) (k : CpuKangaroo)
    (hd : k.d < secpN) (hwoff : woff < secpN)
    (hfit : adjOf woff idx k + jt.dist (jmpFin k.px) < 2 ^ 128) :
    adjOf woff idx (cpuStepK jt k) = adjOf woff idx k + jt.dist (jmpFin k.px) := by
  unfold adjOf at hfit ⊢
  unfold cpuStepK
  dsimp only
  by_cases hw : idx % 2 = WILD
  · rw [if_pos hw] at hfit ⊢
    rw [if_pos hw]
    rw [Nat.mod_add_mod, Nat.add_right_comm k.d (jt.dist (jmpFin k.px)) woff,
      ← Nat.mod_add_mod]
    exact Nat.mod_eq_of_lt (lt_trans hfit two_pow_128_lt_secpN)
  · rw [if_neg hw] at hfit ⊢
    rw [if_neg hw]
    exact Nat.mod_eq_of_lt (lt_trans hfit two_pow_128_lt_secpN)

theorem pack_step_comm (jt : JumpTable) (woff idx : ℕ) (k : CpuKangaroo)
    (hpx : k.px < 2 ^ 256) (hpy : k.py < 2 ^ 256)
    (hd : k.d < secpN) (hwoff : woff < secpN)
    (hjd : ∀ i, jt.dist i < 2 ^ 128)
    (hfit : adjOf woff idx k + jt.dist (jmpFin k.px) < 2 ^ 128) :
    gpuStepK jt (packKangaroo woff idx k) = packKangaroo woff idx (cpuStepK jt k) := by
  have hadj : adjOf woff idx k < 2 ^ 128 :=
    lt_of_le_of_lt (Nat.le_add_right _ _) hfit
  have hjd' := hjd (jmpFin k.px)
  obtain ⟨px, py, d⟩ := k
  dsimp only at hpx hpy hd hfit hadj hjd'
  unfold adjOf at hfit hadj
  dsimp only at hfit hadj
  unfold gpuStepK cpuStepK packKangaroo
  dsimp only
  rw [Nat.mod_eq_of_lt hpx, Nat.mod_eq_of_lt hpy]
  simp only [GpuKangaroo.mk.injEq]
  refine ⟨?_, ?_, ?_⟩
  · exact (Nat.mod_eq_of_lt (lt_trans (fsub_lt _ _) secpP_lt_two_pow_256)).symm
  · exact (Nat.mod_eq_of_lt (lt_trans (fsub_lt _ _) secpP_lt_two_pow_256)).symm
  · by_cases hw : idx % 2 = WILD
    · rw [if_pos hw] at hfit hadj
      rw [if_pos hw, if_pos hw]
      rw [Nat.mod_eq_of_lt hadj, Nat.mod_eq_of_lt hjd', Nat.mod_eq_of_lt hfit,
        Nat.mod_add_mod, Nat.add_right_comm d (jt.dist (jmpFin px)) woff]
      have hsplit : (d + woff + jt.dist (jmpFin px)) % secpN
          = (d + woff) % secpN + jt.dist (jmpFin px) := by
        rw [← Nat.mod_add_mod]
        exact Nat.mod_eq_of_lt (lt_trans hfit two_pow_128_lt_secpN)
      rw [hsplit, Nat.mod_eq_of_lt hfit]
    · rw [if_neg hw] at hfit hadj
      rw [if_neg hw, if_neg hw]
      rw [Nat.mod_eq_of_lt hadj, Nat.mod_eq_of_lt hjd', Nat.mod_eq_of_lt hfit,
        Nat.mod_eq_of_lt (lt_trans hfit two_pow_128_lt_secpN),
        Nat.mod_eq_of_lt hfit]

/-- Claim C1 counterexample: a single tame kangaroo whose distance is
2 ^ 128 (a canonical scalar below secpN).  One CPU step adds the jump
distance modulo secpN and yields d = 2 ^ 128 + 1, while PackKangaroo keeps
only the low two 64-bit limbs (binary 0), the kernel's Add128Vec adds the
jump modulo 2 ^ 128, and the downloaded, unpacked distance is 1 — the herd
states are not bit-identical after one runOnce iteration. -/
theorem c1_counterexample :
    (unpackKangaroo 0 0
        (gpuRun { dist := fun _ => 1, ptx := fun _ => 2, pty := fun _ => 3 } 1
          (packKangaroo 0 0 ⟨5, 7, 2 ^ 128⟩))).d
      ≠ (cpuRun { dist := fun _ => 1, ptx := fun _ => 2, pty := fun _ => 3 } 1
          ⟨5, 7, 2 ^ 128⟩).d := by
  decide

/-- Claim C1 as amended: provided every jump distance fits in 128 bits and
the kangaroo's adjusted distance never overflows 128 bits while the
dispatched iterations run, a runOnce dispatch of n = iterationsPerDispatch
kernel iterations followed by download and UnpackKangaroo reproduces exactly
the state (px, py, d) of n CPU steps of the same kangaroo — in particular
for iterationsPerDispatch = 1 and for iterationsPerDispatch = NB_RUN.
Without the no-overflow bound the states differ, because PackKangaroo
truncates the distance to two 64-bit limbs and the kernel adds distances
modulo 2 ^ 128 while the CPU adds them modulo secpN. -/
theorem c1_amended (jt : JumpTable) (woff idx n : ℕ) (k : CpuKangaroo)
    (hpx : k.px < 2 ^ 256) (hpy : k.py < 2 ^ 256)
    (hd : k.d < secpN) (hwoff : woff < secpN)
    (hjd : ∀ i, jt.dist i < 2 ^ 128)
    (hadj : adjOf woff idx k < 2 ^ 128)
    (hfit : ∀ j, j < n →
      adjOf woff idx (cpuRun jt j k) + jt.dist (jmpFin (cpuRun jt j k).px) < 2 ^ 128) :
    unpackKangaroo woff idx (gpuRun jt n (packKangaroo woff idx k)) = cpuRun jt n k := by
  induction n generalizing k with
  | zero => exact unpack_pack_eq woff idx k hpx hpy hd hwoff hadj
  | succ m ih =>
    have hfit0 : adjOf woff idx k + jt.dist (jmpFin k.px) < 2 ^ 128 :=
      hfit 0 (Nat.succ_pos m)
    have hstep : gpuRun jt (m + 1) (packKangaroo woff idx k)
        = gpuRun jt m (packKangaroo woff idx (cpuStepK jt k)) := by
      show gpuRun jt m (gpuStepK jt (packKangaroo woff idx k)) = _
      rw [pack_step_comm jt woff idx k hpx hpy hd hwoff hjd hfit0]
    rw [hstep]
    show unpackKangaroo woff idx
        (gpuRun jt m (packKangaroo woff idx (cpuStepK jt k)))
      = cpuRun jt m (cpuStepK jt k)
    refine ih (cpuStepK jt k) (cpuStep_px_lt jt k) (cpuStep_py_lt jt k)
      (cpuStep_d_lt jt k) ?_ ?_
    · rw [adj_step jt woff idx k hd hwoff hfit0]
      exact hfit0
    · exact fun j hj => hfit (j + 1) (Nat.succ_lt_succ hj)

/-- Claim C1 amended, witness: a concrete kangaroo (5, 7, distance 9),
index 0, a jump table of constant distance 1, and one iteration; all jump
distances fit in 128 bits and the one-step parity conclusion follows. -/
theorem c1_amended_witness :
    (∀ i, ({ dist := fun _ => 1, ptx := fun _ => 2, pty := fun _ => 3 } : JumpTable).dist i < 2 ^ 128) ∧
    unpackKangaroo 0 0
        (gpuRun { dist := fun _ => 1, ptx := fun _ => 2, pty := fun _ => 3 } 1
          (packKangaroo 0 0 ⟨5, 7, 9⟩))
      = cpuRun { dist := fun _ => 1, ptx := fun _ => 2, pty := fun _ => 3 } 1 ⟨5, 7, 9⟩ :=
  ⟨by decide,
    c1_amended { dist := fun _ => 1, ptx := fun _ => 2, pty := fun _ => 3 } 0 0 1
      ⟨5, 7, 9⟩ (by decide) (by decide) (by decide) (by decide) (by decide)
      (by decide) (by decide)⟩

/-- Claim C2: in the discrete-logarithm model of the group oracle, herd
creation establishes the walker invariant — a TAME walker's point is d times
G and a WILD walker's point is Q plus d times G — and one walk step (adding
a jump point to the position and its distance to d) preserves it, for every
jump index. -/
theorem c2_walker_invariant (q halfWidth rnd : ZMod secpN) (firstType j0 : ℕ)
    (jt : Fin 32 → ZMod secpN) (j : Fin 32) (w : Walker)
    (hw : walkerInv q w) :
    walkerInv q (createWalker q halfWidth rnd firstType j0) ∧
    walkerInv q (walkerStep jt j w) := by
  constructor
  · unfold walkerInv createWalker
    dsimp only
  · unfold walkerInv at hw ⊢
    unfold walkerStep
    dsimp only
    rw [hw, add_assoc]

/-- Claim C2 witness: a concrete tame walker at point 5 with distance 5
satisfies the invariant, as do a freshly created walker and the walker after
one step of jump distance 1. -/
theorem c2_walker_invariant_witness :
    walkerInv 3 (createWalker 3 2 5 0 0) ∧
    walkerInv 3 (walkerStep (fun _ => 1) 0 ⟨0, 5, 5⟩) :=
  c2_walker_invariant 3 2 5 0 0 (fun _ => 1) 0 ⟨0, 5, 5⟩ (by decide)

/-- Claim C3 (code-bug evidence): the kernel's StoreDpItem writes a 14-word
item, and decoding those 14 words where they were written recovers the
stored x limbs, distance limbs and index exactly; but the host
(SolveKeyGPU / Check) decodes item i starting at ring word
i * ITEM_SIZE32 + 1 — one u32 word past where the kernel stored it — so for
the concrete stored item with x limb 0 equal to 1 the host-decoded x limb 0
is not the stored value. -/
theorem c3_dp_decode_shift :
    kDpWords = 14 ∧ ITEM_SIZE32 = 14 ∧
    (storeDpItem xex dex 0).length = kDpWords ∧
    (∀ j, (decodeDpItemAt dpRingEx 0).1 j = xex j) ∧
    (∀ j, (decodeDpItemAt dpRingEx 0).2.1 j = dex j) ∧
    (decodeDpItemAt dpRingEx 0).2.2 = 0 ∧
    (decodeDpItem dpRingEx 0).1 0 ≠ xex 0 := by
  refine ⟨rfl, rfl, rfl, by decide, by decide, by decide, by decide⟩

/-- Claim C4: whenever Kangaroo::Output prints a Priv line with scalar r,
the re-verification guard has succeeded, so r's public key equals the
searched key and r is the candidate that was handed in — no unverified
candidate is ever reported. -/
theorem c4_output_verified (pk target r : ZMod secpN)
    (h : outputResult pk target = some r) :
    computePublicKey r = target ∧ r = pk := by
  unfold outputResult at h
  by_cases hc : computePublicKey pk = target
  · rw [if_pos hc] at h
    injection h with h2
    subst h2
    exact ⟨hc, rfl⟩
  · rw [if_neg hc] at h
    exact absurd h (by simp)

/-- Claim C4 witness: the candidate 7 for target 7 is printed, and the
theorem yields the verification equation for it. -/
theorem c4_output_verified_witness :
    computePublicKey (7 : ZMod secpN) = 7 ∧ (7 : ZMod secpN) = 7 :=
  c4_output_verified 7 7 7 (by decide)

/-- Claim C5: when the two colliding entries come from different herds and
all 8 sign-and-target checks of the resolver fail, CollisionCheck prints the
warning, leaves endOfSearch false and returns false; AddToTable therefore
reports failure, and the walker that produced the later entry is reset while
the search continues. -/
theorem c5_spurious_collision (kts d1 : ZMod secpN) (t1 : ℕ) (d2 : ZMod secpN)
    (t2 : ℕ) (hne : t1 ≠ t2)
    (hfail : ∀ ty, ty < 4 →
      checkKeyPass kts (if t1 = TAME then d1 else d2)
        (if t1 = TAME then d2 else d1) ty = false) :
    collisionCheck kts d1 t1 d2 t2 = ⟨false, false, true⟩ ∧
    (addToTable kts .addCollision d1 t1 d2 t2).2 = false ∧
    walkerResetOnAdd (addToTable kts .addCollision d1 t1 d2 t2).2 = true := by
  have h0 := hfail 0 (by norm_num)
  have h1 := hfail 1 (by norm_num)
  have h2 := hfail 2 (by norm_num)
  have h3 := hfail 3 (by norm_num)
  have hcc : collisionCheck kts d1 t1 d2 t2 = ⟨false, false, true⟩ := by
    unfold collisionCheck
    rw [if_neg hne]
    dsimp only
    rw [h0, h1, h2, h3]
    rfl
  refine ⟨hcc, ?_, ?_⟩
  · unfold addToTable
    dsimp only
    rw [hcc]
  · unfold addToTable walkerResetOnAdd
    dsimp only
    rw [hcc]
    rfl

/-- Claim C5 witness: tame distance 1 and wild distance 1 colliding against
target discrete log 5 fail all 8 checks (the candidates are 2, 0 and -2),
and the outcome is warning, no endOfSearch, failure and a walker reset. -/
theorem c5_spurious_collision_witness :
    collisionCheck 5 1 0 1 1 = ⟨false, false, true⟩ ∧
    (addToTable 5 .addCollision 1 0 1 1).2 = false ∧
    walkerResetOnAdd (addToTable 5 .addCollision 1 0 1 1).2 = true :=
  c5_spurious_collision 5 1 0 1 1 (by decide) (by decide)

theorem jumpLoop_all_fail (draw : ℕ → Fin 32 → ℕ) (accept : ℕ → Bool)
    (hfail : ∀ r, accept (roundTotal (mkRound (draw r))) = false) :
    ∀ fuel r, jumpLoop draw accept (fuel + 1) r = (mkRound (draw (r + fuel)), false) := by
  intro fuel
  induction fuel with
  | zero =>
    intro r
    unfold jumpLoop
    dsimp only
    rw [hfail r]
    simp
  | succ m ih =>
    intro r
    unfold jumpLoop
    dsimp only
    rw [hfail r]
    simp only [Bool.false_eq_true, if_false]
    rw [if_neg (Nat.succ_ne_zero m), ih (r + 1)]
    rw [show r + 1 + m = r + (m + 1) from by omega]

/-- Claim C6 counterexample: with a draw stream of zeros (fixed up to
distance 1) and a mean-distance test that fails on every round — so all 100
redraws fail the constraint — CreateJumpTable still returns normally,
handing back the last drawn table (all distances 1) with the accept flag
false; no JumpTableBad error exists in the code and the table is used as
is. -/
theorem c6_counterexample :
    (createJumpTable (fun _ _ => 0) (fun _ => false)).2 = false ∧
    ∀ i, (createJumpTable (fun _ _ => 0) (fun _ => false)).1 i = 1 := by
  have h := jumpLoop_all_fail (fun _ _ => 0) (fun _ => false) (fun _ => rfl) 99 0
  unfold createJumpTable
  rw [h]
  exact ⟨rfl, fun i => rfl⟩

/-- Claim C6 as amended: if all 100 drawn rounds fail the mean-distance
constraint, CreateJumpTable stops retrying and proceeds with the 100th
drawn (non-conforming) table, reporting ok = false internally; it surfaces
no error and the jump points are computed from that table. -/
theorem c6_amended (draw : ℕ → Fin 32 → ℕ) (accept : ℕ → Bool)
    (hfail : ∀ r, accept (roundTotal (mkRound (draw r))) = false) :
    createJumpTable draw accept = (mkRound (draw 99), false) := by
  unfold createJumpTable
  have h := jumpLoop_all_fail draw accept hfail 99 0
  simpa using h

/-- Claim C6 amended, witness: the all-failing accept stream with zero draws
yields exactly the 100th round's fixed-up table and the failure flag. -/
theorem c6_amended_witness :
    createJumpTable (fun _ _ => 0) (fun _ => false) = (mkRound (fun _ => 0), false) :=
  c6_amended (fun _ _ => 0) (fun _ => false) (fun _ => rfl)

/-- Claim C7: CreateJumpTable reseeds the PRNG with the fixed constant
0x600DCAFE before drawing, so its output — the jump distances and the jump
points they determine — is a function of rangeBits (through jumpBit) alone:
two runs with the same rangeBits and the same (non-symmetry) build produce
identical jump tables regardless of the ambient PRNG state each process had
seeded at startup. -/
theorem c7_jump_table_deterministic {S : Type} (rseedF : ℕ → S)
    (next : S → ℕ × S) (accept : ℕ → Bool) (rangePower : ℕ) (s0 s0' : S) :
    createJumpTableSeeded rseedF next accept rangePower s0
      = createJumpTableSeeded rseedF next accept rangePower s0' := rfl

end FastJLP
